import Mathlib

/-!
Verification development for the Ameo unified server (src/server.js and the
earlier DeepSeek variant). The JavaScript is shallowly embedded: JSON values
become an inductive type, JS truthiness an explicit predicate, each request
handler a pure function from its inputs (and a small database model) to a
response record, and each library call that can reject becomes an `Option` or
`Except` value. External library behaviour (the runtime JSON.parse) is a
function parameter; everything written in the repository itself is translated
directly.
-/

namespace Ameo

/-- Model of a JavaScript JSON value (the result of a successful JSON.parse).
Numbers are rationals; `undefined` is modelled as `Option.none` at use sites. -/
inductive Json where
  | null : Json
  | bool : Bool → Json
  | num : Rat → Json
  | str : String → Json
  | arr : List Json → Json
  | obj : List (String × Json) → Json

/-- JavaScript truthiness of a JSON value. -/
def jsTruthy : Json → Bool
  | .null => false
  | .bool b => b
  | .num n => n != 0
  | .str s => s != ""
  | .arr _ => true
  | .obj _ => true

/-- First-match field lookup in an object literal. -/
def jsonLookup (fields : List (String × Json)) (k : String) : Option Json :=
  match fields.find? (fun p => p.1 == k) with
  | some p => some p.2
  | none => none

/-- JavaScript property access `v.k`: throws (`.error`) on null, yields the
field for an object, and `undefined` (`none`) for every other value. -/
def jsField : Json → String → Except Unit (Option Json)
  | .null, _ => .error ()
  | .obj fields, k => .ok (jsonLookup fields k)
  | _, _ => .ok none

/-- JavaScript `v || d`: `v` when defined and truthy, otherwise `d`. -/
def jsOr (v : Option Json) (d : Json) : Json :=
  match v with
  | some j => if jsTruthy j then j else d
  | none => d

/-! ### cleanMarkdownFromFeedback (src/server.js lines 343-362)

Each regex `.replace(..., g)` is a left-to-right scan that, at each position,
either rewrites a match and resumes after it or keeps one character and moves
on. The scan is written with fuel equal to the input length; every match
consumes at least one character, so the fuel never runs out. -/

/-- One global-replace pass: `m` tries to match at the current position,
returning the replacement text and the rest of the input. -/
def scanRep (m : List Char → Option (List Char × List Char)) :
    Nat → List Char → List Char
  | _, [] => []
  | 0, cs => cs
  | fuel + 1, c :: cs =>
    match m (c :: cs) with
    | some (rep, rest) => rep ++ scanRep m fuel rest
    | none => c :: scanRep m fuel cs

def runScan (m : List Char → Option (List Char × List Char))
    (cs : List Char) : List Char :=
  scanRep m cs.length cs

/-- Matcher for `/\*\*([^*]*)\*\*/` replaced by the captured group. -/
def mBoldStar : List Char → Option (List Char × List Char)
  | '*' :: '*' :: rest =>
    let t := rest.takeWhile (· != '*')
    match rest.dropWhile (· != '*') with
    | '*' :: '*' :: r2 => some (t, r2)
    | _ => none
  | _ => none

/-- Matcher for `/__([^_]*)__/` replaced by the captured group. -/
def mBoldUnder : List Char → Option (List Char × List Char)
  | '_' :: '_' :: rest =>
    let t := rest.takeWhile (· != '_')
    match rest.dropWhile (· != '_') with
    | '_' :: '_' :: r2 => some (t, r2)
    | _ => none
  | _ => none

/-- Matcher for `/\*([^*]*)\*/` replaced by the captured group. -/
def mItalStar : List Char → Option (List Char × List Char)
  | '*' :: rest =>
    let t := rest.takeWhile (· != '*')
    match rest.dropWhile (· != '*') with
    | '*' :: r2 => some (t, r2)
    | _ => none
  | _ => none

/-- Matcher for `/_([^_]*)_/` replaced by the captured group. -/
def mItalUnder : List Char → Option (List Char × List Char)
  | '_' :: rest =>
    let t := rest.takeWhile (· != '_')
    match rest.dropWhile (· != '_') with
    | '_' :: r2 => some (t, r2)
    | _ => none
  | _ => none

/-- Find the earliest occurrence of three consecutive backticks and return the
remainder after it (the lazy closing delimiter of a fenced code block). -/
def findTriple : Nat → List Char → Option (List Char)
  | _, [] => none
  | 0, _ => none
  | _ + 1, '`' :: '`' :: '`' :: r => some r
  | fuel + 1, _ :: r => findTriple fuel r

/-- Matcher for fenced code blocks, replaced by the empty string. -/
def mCodeBlock : List Char → Option (List Char × List Char)
  | '`' :: '`' :: '`' :: rest =>
    match findTriple rest.length rest with
    | some r2 => some ([], r2)
    | none => none
  | _ => none

/-- Matcher for inline code (one backtick, a non-empty run of non-backticks,
one backtick), replaced by the captured group. -/
def mInlineCode : List Char → Option (List Char × List Char)
  | '`' :: rest =>
    let t := rest.takeWhile (· != '`')
    if t.isEmpty then none
    else
      match rest.dropWhile (· != '`') with
      | '`' :: r2 => some (t, r2)
      | _ => none
  | _ => none

/-- Matcher for `/\n\n+/` replaced by a single newline. -/
def mNewlines : List Char → Option (List Char × List Char)
  | '\n' :: '\n' :: rest => some (['\n'], rest.dropWhile (· == '\n'))
  | _ => none

/-- JavaScript `.trim()`: drop whitespace from both ends. -/
def trimChars (cs : List Char) : List Char :=
  ((cs.dropWhile Char.isWhitespace).reverse.dropWhile Char.isWhitespace).reverse

/-- JavaScript `.trim()` on a string. -/
def jsTrim (s : String) : String := String.mk (trimChars s.toList)

/-- src/server.js lines 343-362: strip markdown from feedback text. A falsy
(empty) string is returned unchanged; otherwise the seven replacements run in
source order and the result is trimmed. -/
def cleanMarkdownFromFeedback (s : String) : String :=
  if s = "" then s
  else
    let cs := s.toList
    let cs := runScan mBoldStar cs
    let cs := runScan mBoldUnder cs
    let cs := runScan mItalStar cs
    let cs := runScan mItalUnder cs
    let cs := runScan mCodeBlock cs
    let cs := runScan mInlineCode cs
    let cs := runScan mNewlines cs
    String.mk (trimChars cs)

/-! ### parseNumberedListFormat (src/server.js lines 369-414) -/

/-- Whether a position matches the lookahead `\d+\.\s`: one or more digits, a
dot, then a whitespace character. -/
def matchesNumDot (cs : List Char) : Bool :=
  let ds := cs.takeWhile Char.isDigit
  match ds, cs.drop ds.length with
  | [], _ => false
  | _ :: _, '.' :: c :: _ => c.isWhitespace
  | _, _ => false

/-- `text.split(/\n(?=\d+\.\s)/)`: cut at each newline that is immediately
followed by a numbered-item start; the newline is consumed, sections keep
their interior newlines. -/
def splitSectionsGo : Nat → List Char → List Char → List (List Char)
  | _, acc, [] => [acc.reverse]
  | 0, acc, rest => [acc.reverse ++ rest]
  | fuel + 1, acc, '\n' :: rest =>
    if matchesNumDot rest then acc.reverse :: splitSectionsGo fuel [] rest
    else splitSectionsGo fuel ('\n' :: acc) rest
  | fuel + 1, acc, c :: rest => splitSectionsGo fuel (c :: acc) rest

def splitSections (cs : List Char) : List (List Char) :=
  splitSectionsGo cs.length [] cs

/-- First alternative of the title regex, applied after the digits and dot:
`\s+\*\*([^*]+)\*\*:`. The whitespace run is necessarily maximal (a star is
not whitespace), so no backtracking arises. -/
def alt1Title (afterDot : List Char) : Option (List Char) :=
  let ws := afterDot.takeWhile Char.isWhitespace
  if ws.isEmpty then none
  else
    match afterDot.drop ws.length with
    | '*' :: '*' :: r2 =>
      let t := r2.takeWhile (· != '*')
      if t.isEmpty then none
      else
        match r2.drop t.length with
        | '*' :: '*' :: ':' :: _ => some t
        | _ => none
    | _ => none

/-- Backtracking loop of the second alternative `\s+([^:]+):`: the greedy
whitespace run gives characters back one at a time until the non-empty
colon-free group followed by a colon can match. -/
def alt2TitleGo (afterDot : List Char) : Nat → Option (List Char)
  | 0 => none
  | k + 1 =>
    let r := afterDot.drop (k + 1)
    let t := r.takeWhile (· != ':')
    if t.isEmpty then alt2TitleGo afterDot k
    else
      match r.drop t.length with
      | ':' :: _ => some t
      | _ => alt2TitleGo afterDot k

def alt2Title (afterDot : List Char) : Option (List Char) :=
  let ws := afterDot.takeWhile Char.isWhitespace
  if ws.isEmpty then none else alt2TitleGo afterDot ws.length

/-- The raw captured title of a section:
`section.match(/^\d+\.\s+\*\*([^*]+)\*\*:|^\d+\.\s+([^:]+):/)`, group 1 or
group 2, or the empty string when there is no match. -/
def sectionTitle (cs : List Char) : String :=
  let ds := cs.takeWhile Char.isDigit
  if ds.isEmpty then ""
  else
    match cs.drop ds.length with
    | '.' :: rest =>
      match alt1Title rest with
      | some t => String.mk t
      | none =>
        match alt2Title rest with
        | some t => String.mk t
        | none => ""
    | _ => ""

/-- `section.split('\n')`. -/
def splitLinesGo : List Char → List Char → List (List Char)
  | acc, [] => [acc.reverse]
  | acc, '\n' :: rest => acc.reverse :: splitLinesGo [] rest
  | acc, c :: rest => splitLinesGo (c :: acc) rest

def splitLines (cs : List Char) : List (List Char) := splitLinesGo [] cs

/-- `line.replace(/^-\s+/, '')`: drop a leading dash and the whitespace run
after it, if there is one; otherwise leave the line unchanged. -/
def stripDash : List Char → List Char
  | '-' :: rest =>
    let ws := rest.takeWhile Char.isWhitespace
    if ws.isEmpty then '-' :: rest else rest.drop ws.length
  | l => l

/-- The bullets of a section: every line after the first that, once trimmed,
is non-empty and starts with a dash; the dash and following whitespace are
stripped, markdown removed, and empty results dropped. -/
def sectionBullets (cs : List Char) : List String :=
  let lines := (splitLines cs).drop 1
  ((((lines.map trimChars).filter
      (fun l => !l.isEmpty && l.headD ' ' == '-')).map
      (fun l => String.mk (trimChars (stripDash l)))).map
      cleanMarkdownFromFeedback).filter (fun b => b != "")

/-- A feedback item as the JavaScript builds it: the three fields hold
arbitrary JSON values, since `item.category || "general"` keeps whatever
truthy value the model returned. -/
structure FbItem where
  feedback : Json
  category : Json
  confidence : Json

/-- The feedback items one section contributes: one item per bullet (the
first bullet prefixed by the title when there is one — compared by value, as
`bullets[0] === bullet` does), or the bare title when there are no bullets. -/
def sectionItems (cs : List Char) : List FbItem :=
  let title := cleanMarkdownFromFeedback (sectionTitle cs)
  let bullets := sectionBullets cs
  match bullets with
  | [] =>
    if title != "" then [⟨.str title, .str "general", .num (4/5)⟩] else []
  | b0 :: _ =>
    bullets.map (fun b =>
      let fb := if b = b0 ∧ title ≠ "" then title ++ ": " ++ b else b
      (⟨.str fb, .str "general", .num (4/5)⟩ : FbItem))

/-- src/server.js lines 369-414: parse the plain-text numbered-list format. -/
def parseNumberedListFormat (text : String) : List FbItem :=
  if text = "" then []
  else ((splitSections text.toList).map sectionItems).flatten

/-! ### generateDesignFeedback response parsing (src/server.js lines 599-655)

The regexes `/\[[\s\S]*\]/` and `/\{[\s\S]*\}/` match from the first opening
bracket to the last closing bracket of the whole text, provided the first
opener comes before the last closer. `JSON.parse` is a runtime library call
and is passed in as a function parameter (`none` models a parse exception). -/

/-- Greedy bracket-span extraction: the substring from the first occurrence
of `o` to the last occurrence of `c`, when the former precedes the latter. -/
def extractSpan (o c : Char) (s : String) : Option String :=
  let cs := s.toList
  match cs.indexOf? o with
  | none => none
  | some i =>
    match cs.reverse.indexOf? c with
    | none => none
    | some jr =>
      let j := cs.length - 1 - jr
      if i < j then some (String.mk ((cs.drop i).take (j - i + 1))) else none

/-- `cleanMarkdownFromFeedback(v)` on an arbitrary JavaScript value: a falsy
argument is returned unchanged, a truthy string is cleaned, and any other
truthy value makes `.replace` throw. -/
def cleanMdJs : Option Json → Except Unit (Option Json)
  | none => .ok none
  | some j =>
    if jsTruthy j then
      match j with
      | .str s => .ok (some (.str (cleanMarkdownFromFeedback s)))
      | _ => .error ()
    else .ok (some j)

/-- One item of the parsed JSON array (or the single parsed object), mapped
as in src/server.js lines 609-613 and 632-636: markdown-cleaned feedback with
the three `||` fallbacks. An exception propagates to the enclosing catch. -/
def itemToFb (item : Json) : Except Unit FbItem := do
  let fbRaw ← jsField item "feedback"
  let fbClean ← cleanMdJs fbRaw
  let catRaw ← jsField item "category"
  let confRaw ← jsField item "confidence"
  pure ⟨jsOr fbClean (.str "Nice design!"), jsOr catRaw (.str "general"),
        jsOr confRaw (.num (4/5))⟩

/-- The bracketed-array attempt of src/server.js lines 600-622: extract the
span, JSON-parse it, and when the result is a non-empty array map its items;
`none` stands for every way the attempt falls through (no span, parse error,
not an array, empty array, or an exception while mapping). -/
def tryParseArray (parse : String → Option Json) (content : String) :
    Option (List FbItem) :=
  match extractSpan '[' ']' content with
  | none => none
  | some sub =>
    match parse sub with
    | none => none
    | some j =>
      match j with
      | .arr items =>
        if items.isEmpty then none
        else
          match items.mapM itemToFb with
          | .ok l => some l
          | .error _ => none
      | _ => none

/-- The braced-object attempt of src/server.js lines 625-642. -/
def tryParseObject (parse : String → Option Json) (content : String) :
    Option FbItem :=
  match extractSpan '\x7b' '\x7d' content with
  | none => none
  | some sub =>
    match parse sub with
    | none => none
    | some j =>
      match itemToFb j with
      | .ok it => some it
      | .error _ => none

/-- src/server.js lines 599-655: how `generateDesignFeedback` turns the model
response text into feedback items — array attempt, then object attempt, then
the numbered-list parser, then the raw cleaned content at confidence 0.75. -/
def processFeedbackContent (parse : String → Option Json) (content : String) :
    List FbItem :=
  match tryParseArray parse content with
  | some items => items
  | none =>
    match tryParseObject parse content with
    | some it => [it]
    | none =>
      let lst := parseNumberedListFormat content
      if lst.isEmpty then
        [⟨.str (cleanMarkdownFromFeedback content), .str "general",
          .num (3/4)⟩]
      else lst

/-! ### Daily speeches (src/server.js lines 26-27, 58-89, 127-164, 170-277) -/

/-- The result object: an ordered list of (category, speech list) pairs,
matching JavaScript object key order. -/
abbrev Speeches := List (String × List String)

/-- src/server.js lines 58-89. -/
def FALLBACK_SPEECHES : Speeches :=
  [("general_tech_roasts",
    ["You call *that* code?",
     "Have you tried Stack Overflow?",
     "That's why we have code review."]),
   ("ai_news",
    ["AI is coming for your job.",
     "Another AI startup. Groundbreaking.",
     "ChatGPT wrote this better."]),
   ("figma",
    ["Your design system needs a design system.",
     "Figma crashed again? Classic.",
     "That component library is... something."]),
   ("science",
    ["According to science, you should sleep.",
     "Physics disagrees with your approach.",
     "The laws of thermodynamics called."]),
   ("games",
    ["Speedrun through the tutorial? Bold.",
     "That's a skill issue.",
     "Press F to respect."]),
   ("design_tools",
    ["Another design tool emerges.",
     "Better tools won't fix bad design.",
     "Your design needs work, not tools."])]

/-- The filter of src/server.js lines 262-264: keep a value when it is a
string of length 1..130. -/
def validSpeech (j : Json) : Option String :=
  match j with
  | .str s => if 0 < s.length ∧ s.length ≤ 130 then some s else none
  | _ => none

/-- One category of src/server.js lines 258-268: `aiSpeeches[category] || []`
must be an array (anything else throws at `.filter`), the valid AI speeches
are appended to the fallback list and the result cut to five entries. -/
def combineCategory (aiVal : Option Json) (fallback : List String) :
    Except Unit (List String) :=
  match jsOr aiVal (.arr []) with
  | .arr xs => .ok ((fallback ++ xs.filterMap validSpeech).take 5)
  | _ => .error ()

/-- The `for (const [category, fallback] of Object.entries(FALLBACK_SPEECHES))`
loop of src/server.js lines 258-274: build the combined object category by
category; a throw in any category aborts the whole call. -/
def combineEntries (lookup : String → Option Json) :
    List (String × List String) → Except Unit Speeches
  | [] => .ok []
  | cf :: rest => do
    let l ← combineCategory (lookup cf.1) cf.2
    let tail ← combineEntries lookup rest
    pure ((cf.1, l) :: tail)

/-- src/server.js lines 255-277: `validateAndCombineSpeeches`. Indexing a
null input throws; indexing any other non-object yields `undefined` for every
category. -/
def validateAndCombineSpeeches (aiSpeeches : Json) : Except Unit Speeches :=
  match aiSpeeches with
  | .null => .error ()
  | .obj fields => combineEntries (jsonLookup fields) FALLBACK_SPEECHES
  | _ => combineEntries (fun _ => none) FALLBACK_SPEECHES

/-- The outbound OpenAI call as `generateDailySpeeches` observes it: the HTTP
status flag and `data.choices[0]?.message?.content`. -/
structure FetchResp where
  ok : Bool
  content : Option String
deriving DecidableEq

/-- The environment of one `generateDailySpeeches` run: the API key variable
and the outcome of the fetch (`none` when the call or the body read rejects). -/
structure SpeechEnv where
  apiKey : Option String
  fetchResult : Option FetchResp
deriving DecidableEq

/-- JavaScript truthiness of an optional string. -/
def strTruthy : Option String → Bool
  | none => false
  | some s => s != ""

/-- src/server.js lines 170-223: `generateDailySpeeches`. Every failure path
— missing key, rejected call, non-ok status, empty content, JSON parse error,
or a throw inside `validateAndCombineSpeeches` — is caught and produces the
hardcoded fallback object. -/
def generateDailySpeeches (env : SpeechEnv) (parse : String → Option Json) :
    Speeches :=
  if strTruthy env.apiKey then
    match env.fetchResult with
    | none => FALLBACK_SPEECHES
    | some r =>
      if r.ok then
        match r.content with
        | none => FALLBACK_SPEECHES
        | some c =>
          if c = "" then FALLBACK_SPEECHES
          else
            match parse c with
            | none => FALLBACK_SPEECHES
            | some j =>
              match validateAndCombineSpeeches j with
              | .ok sp => sp
              | .error _ => FALLBACK_SPEECHES
      else FALLBACK_SPEECHES
  else FALLBACK_SPEECHES

/-- The two module-level cache variables of src/server.js lines 26-27. -/
structure SpeechCache where
  cachedSpeeches : Option Speeches
  cachedDate : String
deriving DecidableEq

/-- The response and effects of one GET /api/speech/daily request. -/
structure DailyOut where
  date : String
  categories : Speeches
  cached : Bool
  state : SpeechCache
  invoked : Bool
deriving DecidableEq

/-- src/server.js lines 127-164: the daily-speech route. `today` is the
request-time date string; `gen` the value `generateDailySpeeches()` would
produce; `invoked` records whether the generator ran. -/
def dailyHandler (st : SpeechCache) (today : String) (gen : Speeches) :
    DailyOut :=
  match st.cachedSpeeches with
  | some sp =>
    if st.cachedDate = today then ⟨today, sp, true, st, false⟩
    else ⟨today, gen, false, ⟨some gen, today⟩, true⟩
  | none => ⟨today, gen, false, ⟨some gen, today⟩, true⟩

/-! ### Messaging database model (src/server.js lines 815-864)

The relational store is a record of three tables kept in insertion order,
with SERIAL counters for fresh ids and a logical clock for `created_at`.
Each handler takes a `dbFail` flag: a rejected query lands in the route's
catch block and produces a 500 response. -/

structure User where
  id : Nat
  cat_name : String
deriving DecidableEq

structure Conv where
  id : Nat
  user1 : Nat
  user2 : Nat
deriving DecidableEq

structure Msg where
  id : Nat
  conv : Nat
  sender : Nat
  content : String
  is_read : Bool
  created : Nat
deriving DecidableEq

structure DB where
  users : List User
  convs : List Conv
  msgs : List Msg
  nextUser : Nat
  nextConv : Nat
  nextMsg : Nat
  now : Nat
deriving DecidableEq

/-- `SELECT id FROM users WHERE cat_name = $1`, first row. -/
def findUser (db : DB) (name : String) : Option User :=
  db.users.find? (fun u => u.cat_name == name)

/-- The conversation-between predicate of the lookup query used by
POST /api/messages/send (lines 1030-1034) and by the conversation GET
(lines 1090-1094). -/
def isConvBetween (a b : Nat) (c : Conv) : Bool :=
  (c.user1 == a && c.user2 == b) || (c.user1 == b && c.user2 == a)

/-- `SELECT id FROM conversations WHERE (user1_id = $1 AND user2_id = $2) OR
(user1_id = $2 AND user2_id = $1)`, first row. -/
def findConversation (convs : List Conv) (a b : Nat) : Option Conv :=
  convs.find? (isConvBetween a b)

/-! ### POST /api/messages/register (src/server.js lines 871-897) -/

structure RegisterOut where
  status : Nat
  id : Option Nat
  created : Option Bool
  db : DB
  queries : Nat
deriving DecidableEq

/-- src/server.js lines 871-897: look the name up; answer with the existing
id and `created:false`, or insert a fresh row and answer `created:true`. -/
def registerHandler (db : DB) (cat_name : Option String) (dbFail : Bool) :
    RegisterOut :=
  match cat_name with
  | none => ⟨400, none, none, db, 0⟩
  | some name =>
    if name = "" ∨ jsTrim name = "" then ⟨400, none, none, db, 0⟩
    else if dbFail then ⟨500, none, none, db, 0⟩
    else
      match findUser db name with
      | some u => ⟨200, some u.id, some false, db, 1⟩
      | none =>
        ⟨200, some db.nextUser, some true,
         { db with users := db.users ++ [⟨db.nextUser, name⟩],
                   nextUser := db.nextUser + 1 }, 2⟩

/-! ### POST /api/messages/send (src/server.js lines 1006-1061) -/

structure SendOut where
  status : Nat
  msgId : Option Nat
  convId : Option Nat
  db : DB
  queries : Nat
deriving DecidableEq

/-- src/server.js lines 1006-1061: validate the body, look both users up,
find or create the conversation, insert the message. `queries` counts the
`pool.query` calls the run performs. -/
def sendHandler (db : DB) (sender recipient content : Option String)
    (dbFail : Bool) : SendOut :=
  match sender, recipient, content with
  | some s, some r, some cont =>
    if s = "" ∨ r = "" ∨ cont = "" then ⟨400, none, none, db, 0⟩
    else if dbFail then ⟨500, none, none, db, 0⟩
    else
      match findUser db s, findUser db r with
      | some su, some ru =>
        match findConversation db.convs su.id ru.id with
        | some c =>
          ⟨200, some db.nextMsg, some c.id,
           { db with msgs := db.msgs ++ [⟨db.nextMsg, c.id, su.id, cont,
                                          false, db.now⟩],
                     nextMsg := db.nextMsg + 1, now := db.now + 1 }, 4⟩
        | none =>
          ⟨200, some db.nextMsg, some db.nextConv,
           { db with convs := db.convs ++ [⟨db.nextConv, su.id, ru.id⟩],
                     nextConv := db.nextConv + 1,
                     msgs := db.msgs ++ [⟨db.nextMsg, db.nextConv, su.id,
                                          cont, false, db.now⟩],
                     nextMsg := db.nextMsg + 1, now := db.now + 1 }, 5⟩
      | _, _ => ⟨404, none, none, db, 2⟩
  | _, _, _ => ⟨400, none, none, db, 0⟩

/-! ### GET /api/messages/:user_cat_name/:other_cat_name
(src/server.js lines 1064-1154) -/

/-- `UPDATE messages SET is_read = TRUE WHERE conversation_id = $1 AND
sender_id = $2` applied to one row. -/
def markRead (cid oid : Nat) (m : Msg) : Msg :=
  if m.conv == cid && m.sender == oid then { m with is_read := true } else m

/-- One row of the paginated message query, with the `status` field the
handler adds from the pre-update `is_read` value. -/
structure EnrichedMsg where
  msg : Msg
  cat_name : String
  status : Option String
deriving DecidableEq

structure GetConvOut where
  status : Nat
  conversationId : Option Nat
  messages : List EnrichedMsg
  totalCount : Nat
  hasMore : Bool
  db : DB
  queries : Nat
deriving DecidableEq

/-- src/server.js lines 1064-1154: fetch a conversation page and mark every
message the other user sent in it as read. The page is ordered by
`created_at` ascending; the join with `users` keeps only rows whose sender
exists. -/
def getConvHandler (db : DB) (userName otherName : String)
    (offset limit : Nat) (dbFail : Bool) : GetConvOut :=
  if dbFail then ⟨500, none, [], 0, false, db, 0⟩
  else
    match findUser db userName, findUser db otherName with
    | some u, some o =>
      match findConversation db.convs u.id o.id with
      | none => ⟨200, none, [], 0, false, db, 3⟩
      | some c =>
        let convMsgs := db.msgs.filter (fun m => m.conv == c.id)
        let total := convMsgs.length
        let sorted := convMsgs.insertionSort (fun m1 m2 => m1.created ≤ m2.created)
        let page := (sorted.drop offset).take limit
        let enriched := page.filterMap (fun m =>
          (db.users.find? (fun u2 => u2.id == m.sender)).map (fun u2 =>
            (⟨m, u2.cat_name,
              if m.sender == u.id then
                some (if m.is_read then "read" else "received")
              else none⟩ : EnrichedMsg)))
        ⟨200, some c.id, enriched, total, offset + limit < total,
         { db with msgs := db.msgs.map (markRead c.id o.id) }, 6⟩
    | _, _ => ⟨404, none, [], 0, false, db, 2⟩

/-! ### POST /api/feedback (src/server.js lines 283-337) -/

structure Frame where
  frameId : String
deriving DecidableEq

/-- One entry of the response list. -/
structure FbOut where
  frameId : String
  feedback : Json
  category : Json
  confidence : Json

/-- What one frame contributes to the response list (lines 300-327): the
generated items tagged with the frame id, or — when generation throws — the
single static fallback entry. `gen f = none` models a per-frame throw. -/
def frameContribution (gen : Frame → Option (List FbItem)) (f : Frame) :
    List FbOut :=
  match gen f with
  | some arr => arr.map (fun it =>
      ⟨f.frameId, it.feedback, it.category, it.confidence⟩)
  | none =>
    [⟨f.frameId, .str "Unable to generate feedback at this time",
      .str "general", .num 0⟩]

structure FeedbackOut where
  status : Nat
  items : List FbOut
  httpCalls : Nat

/-- src/server.js lines 283-337: the feedback route. `frames = none` models a
missing or non-array `frames` field; `outerThrow` a throw outside the
per-frame try (the pre-loop logging); `hasKey` decides whether each frame's
`generateDesignFeedback` performs its one outbound call. -/
def feedbackHandler (gen : Frame → Option (List FbItem)) (hasKey : Bool)
    (frames : Option (List Frame)) (outerThrow : Bool) : FeedbackOut :=
  match frames with
  | none => ⟨400, [], 0⟩
  | some fs =>
    if fs.isEmpty then ⟨400, [], 0⟩
    else if outerThrow then ⟨500, [], 0⟩
    else ⟨200, (fs.map (frameContribution gen)).flatten,
          if hasKey then fs.length else 0⟩

/-! ### Status codes of the remaining routes

Each function mirrors the branch structure of its handler; a `*Fail` or
`*Throw` flag stands for a rejected awaited call landing in the catch. -/

def healthStatus : Nat := 200

/-- src/server.js lines 103-121. -/
def rootStatus (fsOk : Bool) : Nat := if fsOk then 200 else 500

/-- src/server.js lines 127-164: the catch around the daily-speech route. -/
def dailyStatus (throws : Bool) : Nat := if throws then 500 else 200

/-- src/server.js lines 727-809: validation 400, knowledge base or missing
key 200, OpenAI failure 500, reply 200. -/
def chatStatus (messageValid kbHit hasKey fetchFail : Bool) : Nat :=
  if !messageValid then 400
  else if kbHit then 200
  else if !hasKey then 200
  else if fetchFail then 500
  else 200

/-- src/server.js lines 903-912. -/
def checkNameStatus (dbFail : Bool) : Nat := if dbFail then 500 else 200

/-- src/server.js lines 915-971. -/
def listConvStatus (dbFail userFound : Bool) : Nat :=
  if dbFail then 500 else if userFound then 200 else 404

/-- src/server.js lines 974-1003. -/
def unreadStatus (dbFail userFound : Bool) : Nat :=
  if dbFail then 500 else if userFound then 200 else 404

/-- src/server.js lines 1161-1193. -/
def typingSetStatus (fieldsValid dbFail userFound : Bool) : Nat :=
  if !fieldsValid then 400
  else if dbFail then 500
  else if userFound then 200
  else 404

/-- src/server.js lines 1196-1218. -/
def typingGetStatus (dbFail : Bool) : Nat := if dbFail then 500 else 200

/-- src/server.js lines 1224-1230: the fallthrough handler. -/
def notFoundStatus : Nat := 404

/-! ### Concrete instances used to exercise the model -/

/-- Two registered users, no conversations, no messages. -/
def dbAB : DB := ⟨[⟨1, "alice"⟩, ⟨2, "bob"⟩], [], [], 3, 1, 1, 0⟩

/-- Alice and Bob with one conversation and one unread message from Bob. -/
def dbConv : DB :=
  ⟨[⟨1, "alice"⟩, ⟨2, "bob"⟩], [⟨1, 1, 2⟩], [⟨1, 1, 2, "yo", false, 0⟩],
   3, 2, 2, 1⟩

/-- A single user with a conversation with herself holding one unread
message she sent (such a row is exactly what POST /api/messages/send creates
when sender and recipient coincide). -/
def dbSelf : DB :=
  ⟨[⟨1, "alice"⟩], [⟨1, 1, 1⟩], [⟨1, 1, 1, "note to self", false, 0⟩],
   2, 2, 2, 1⟩

/-- A per-frame generator that throws on frame f1 and succeeds on others. -/
def genW : Frame → Option (List FbItem) :=
  fun f => if f.frameId == "f1" then none
           else some [⟨.str "ok", .str "layout", .num 1⟩]

/-! ## Helper lemmas -/

/-- The conversation-between predicate is symmetric in the two user ids. -/
theorem isConvBetween_comm (a b : Nat) : isConvBetween a b = isConvBetween b a := by
  funext c
  simp [isConvBetween]
  exact Bool.or_comm _ _

/-- `find?` over an append whose first part has no hit. -/
theorem find?_append_none {α : Type} (p : α → Bool) (l₁ l₂ : List α)
    (h : l₁.find? p = none) : (l₁ ++ l₂).find? p = l₂.find? p := by
  induction l₁ with
  | nil => rfl
  | cons a t ih =>
    cases hp : p a with
    | true => simp [List.find?_cons, hp] at h
    | false =>
      simp only [List.find?_cons, hp, cond_false] at h
      simpa [List.cons_append, List.find?_cons, hp] using ih h

/-! ## Claims -/

/-- C1: the daily-speech cache is a single global one-slot-per-day memo.
After any request on date `today` (whose state then holds `today`'s
speeches), every further request on `today` answers from the slot with
`cached:true`, the same speeches, no generator invocation and an unchanged
slot; a request on a different date `d2` invokes the generator, answers
`cached:false` with the fresh speeches, and overwrites the single slot with
`(some g3, d2)`. -/
theorem daily_speech_cache_memo (st : SpeechCache) (today d2 : String)
    (g g2 g3 : Speeches) (hne : d2 ≠ today) :
    (dailyHandler (dailyHandler st today g).state today g2).cached = true
  ∧ (dailyHandler (dailyHandler st today g).state today g2).categories
      = (dailyHandler st today g).categories
  ∧ (dailyHandler (dailyHandler st today g).state today g2).invoked = false
  ∧ (dailyHandler (dailyHandler st today g).state today g2).state
      = (dailyHandler st today g).state
  ∧ (dailyHandler (dailyHandler st today g).state d2 g3).invoked = true
  ∧ (dailyHandler (dailyHandler st today g).state d2 g3).cached = false
  ∧ (dailyHandler (dailyHandler st today g).state d2 g3).categories = g3
  ∧ (dailyHandler (dailyHandler st today g).state d2 g3).state
      = ⟨some g3, d2⟩ := by
  have hne2 : today ≠ d2 := Ne.symm hne
  rcases st with ⟨cs, cd⟩
  rcases cs with _ | sp
  · simp [dailyHandler, hne2]
  · by_cases h : cd = today
    · simp [dailyHandler, h, hne2]
    · simp [dailyHandler, h, hne2]

/-- Witness for C1 at a concrete cache state and dates. -/
theorem daily_speech_cache_memo_witness :
    ("2026-10-13" : String) ≠ "2026-10-12"
  ∧ (dailyHandler (dailyHandler ⟨none, ""⟩ "2026-10-12" [("x", ["y"])]).state
      "2026-10-12" []).cached = true
  ∧ (dailyHandler (dailyHandler ⟨none, ""⟩ "2026-10-12" [("x", ["y"])]).state
      "2026-10-13" []).invoked = true :=
  ⟨by decide,
   (daily_speech_cache_memo ⟨none, ""⟩ "2026-10-12" "2026-10-13"
      [("x", ["y"])] [] [] (by decide)).1,
   (daily_speech_cache_memo ⟨none, ""⟩ "2026-10-12" "2026-10-13"
      [("x", ["y"])] [] [] (by decide)).2.2.2.2.1⟩

/-- C3: `generateDailySpeeches` always falls back to the hardcoded content:
when the API key is unset (or empty), the outbound call rejects, the response
is not ok, the content is missing or empty, or the content fails to parse,
the function returns exactly `FALLBACK_SPEECHES` instead of raising. -/
theorem daily_speeches_fallback (env : SpeechEnv)
    (parse : String → Option Json)
    (h : env.apiKey = none ∨ env.apiKey = some "" ∨ env.fetchResult = none
       ∨ ∃ r, env.fetchResult = some r ∧
           (r.ok = false ∨ r.content = none ∨ r.content = some "" ∨
            ∃ c, r.content = some c ∧ parse c = none)) :
    generateDailySpeeches env parse = FALLBACK_SPEECHES := by
  rcases env with ⟨key, fr⟩
  rcases h with h | h | h | ⟨r, hr, hcase⟩
  · simp at h
    simp [generateDailySpeeches, h, strTruthy]
  · simp at h
    simp [generateDailySpeeches, h, strTruthy]
  · simp at h
    simp [generateDailySpeeches, h]
  · simp at hr
    subst hr
    rcases hcase with h | h | h | ⟨c, hc, hp⟩
    · simp [generateDailySpeeches, h]
    · simp [generateDailySpeeches, h]
    · simp [generateDailySpeeches, h]
    · simp [generateDailySpeeches, hc, hp]

/-- Witness for C3: no API key configured. -/
theorem daily_speeches_fallback_witness :
    (SpeechEnv.mk none none).apiKey = none
  ∧ generateDailySpeeches ⟨none, none⟩ (fun _ => none) = FALLBACK_SPEECHES :=
  ⟨rfl, daily_speeches_fallback ⟨none, none⟩ (fun _ => none) (Or.inl rfl)⟩

/-- C2: the design-feedback response parsing is a fixed sequence of attempts.
For every response text: when the bracketed-array attempt succeeds its items
are the result; on its failure, a successful braced-object attempt yields
that single item; on failure of both, a non-empty numbered-list parse is the
result; and only when that too yields no items is the raw content returned,
markdown-stripped, as one general item with confidence 0.75. -/
theorem design_feedback_parse_sequence (parse : String → Option Json)
    (content : String) :
    (∀ items, tryParseArray parse content = some items →
       processFeedbackContent parse content = items)
  ∧ (tryParseArray parse content = none →
       ∀ it, tryParseObject parse content = some it →
         processFeedbackContent parse content = [it])
  ∧ (tryParseArray parse content = none →
       tryParseObject parse content = none →
       parseNumberedListFormat content ≠ [] →
         processFeedbackContent parse content
           = parseNumberedListFormat content)
  ∧ (tryParseArray parse content = none →
       tryParseObject parse content = none →
       parseNumberedListFormat content = [] →
         processFeedbackContent parse content
           = [⟨.str (cleanMarkdownFromFeedback content), .str "general",
               .num (3/4)⟩]) := by
  refine ⟨?_, ?_, ?_, ?_⟩
  · intro items h
    simp [processFeedbackContent, h]
  · intro h1 it h2
    simp [processFeedbackContent, h1, h2]
  · intro h1 h2 h3
    have he : (parseNumberedListFormat content).isEmpty = false := by
      simpa [List.isEmpty_iff] using h3
    simp [processFeedbackContent, h1, h2, he]
  · intro h1 h2 h3
    have he : (parseNumberedListFormat content).isEmpty = true := by
      simp [List.isEmpty_iff, h3]
    simp [processFeedbackContent, h1, h2, he]

/-- Witness for C2: a plain text with no JSON and no numbered list lands in
the final raw-content branch with confidence 0.75. -/
theorem design_feedback_parse_sequence_witness :
    tryParseArray (fun _ => none) "hello world" = none
  ∧ processFeedbackContent (fun _ => none) "hello world"
      = [⟨.str "hello world", .str "general", .num (3/4)⟩] := by
  have hclean : cleanMarkdownFromFeedback "hello world" = "hello world" := by
    decide
  have hnum : parseNumberedListFormat "hello world" = [] := rfl
  have h := (design_feedback_parse_sequence (fun _ => none)
      "hello world").2.2.2 rfl rfl hnum
  rw [hclean] at h
  exact ⟨rfl, h⟩

/-- The amended status range: success, request-validation failure, not
found, or caught internal error. -/
def statusOk (s : Nat) : Prop := s = 200 ∨ s = 400 ∨ s = 404 ∨ s = 500

/-- C4 (amended): every response status any route sends is 200, 400, 404 or
500 — the claim's "only 500 or 404 for errors" fails because validation
failures answer 400 (see the counterexample), and no other code is used. -/
theorem error_statuses_bounded :
    (∀ fsOk, statusOk (rootStatus fsOk))
  ∧ statusOk healthStatus
  ∧ (∀ t, statusOk (dailyStatus t))
  ∧ (∀ a b c d, statusOk (chatStatus a b c d))
  ∧ (∀ gen k fr t, statusOk (feedbackHandler gen k fr t).status)
  ∧ (∀ db n f, statusOk (registerHandler db n f).status)
  ∧ (∀ f, statusOk (checkNameStatus f))
  ∧ (∀ f u, statusOk (listConvStatus f u))
  ∧ (∀ f u, statusOk (unreadStatus f u))
  ∧ (∀ db s r c f, statusOk (sendHandler db s r c f).status)
  ∧ (∀ db u o off lim f, statusOk (getConvHandler db u o off lim f).status)
  ∧ (∀ v f u, statusOk (typingSetStatus v f u))
  ∧ (∀ f, statusOk (typingGetStatus f))
  ∧ statusOk notFoundStatus := by
  refine ⟨?_, ?_, ?_, ?_, ?_, ?_, ?_, ?_, ?_, ?_, ?_, ?_, ?_, ?_⟩ <;>
    intros <;>
    simp only [rootStatus, healthStatus, dailyStatus, chatStatus,
      checkNameStatus, listConvStatus, unreadStatus, typingSetStatus,
      typingGetStatus, notFoundStatus, feedbackHandler, registerHandler,
      sendHandler, getConvHandler, statusOk] <;>
    (repeat' split) <;> simp

/-- Counterexample for C4: POST /api/feedback with a missing frames array
answers 400, which is neither 500 nor 404. -/
theorem error_status_400_exists :
    (feedbackHandler (fun _ => none) false none false).status = 400
  ∧ ¬((feedbackHandler (fun _ => none) false none false).status = 500
    ∨ (feedbackHandler (fun _ => none) false none false).status = 404) := by
  constructor
  · rfl
  · intro h
    rcases h with h | h <;> exact absurd h (by decide)

/-- C5: a per-frame failure in POST /api/feedback is caught and replaced by
the static fallback item. With a non-empty frames array the response is
HTTP 200 and concatenates each frame's contribution; a frame whose
generation throws contributes exactly one item with the static string,
category general and confidence 0, while every other frame's items are kept. -/
theorem feedback_per_frame_fallback (gen : Frame → Option (List FbItem))
    (k : Bool) (frames : List Frame) (h : frames ≠ []) :
    (feedbackHandler gen k (some frames) false).status = 200
  ∧ (feedbackHandler gen k (some frames) false).items
      = (frames.map (frameContribution gen)).flatten
  ∧ (∀ f ∈ frames, gen f = none →
       frameContribution gen f
         = [⟨f.frameId, .str "Unable to generate feedback at this time",
             .str "general", .num 0⟩])
  ∧ (∀ f l, gen f = some l →
       frameContribution gen f
         = l.map (fun it => ⟨f.frameId, it.feedback, it.category,
                             it.confidence⟩)) := by
  have hne : frames.isEmpty = false := by
    simpa [List.isEmpty_iff] using h
  refine ⟨?_, ?_, ?_, ?_⟩
  · simp [feedbackHandler, hne]
  · simp [feedbackHandler, hne]
  · intro f _ hf
    simp [frameContribution, hf]
  · intro f l hf
    simp [frameContribution, hf]

/-- Witness for C5: the first frame's generation throws, the second
succeeds; the response is 200 with the fallback item for f1 followed by the
generated item for f2. -/
theorem feedback_per_frame_fallback_witness :
    ([⟨"f1"⟩, ⟨"f2"⟩] : List Frame) ≠ []
  ∧ (feedbackHandler genW true (some [⟨"f1"⟩, ⟨"f2"⟩]) false).status = 200
  ∧ (feedbackHandler genW true (some [⟨"f1"⟩, ⟨"f2"⟩]) false).items
      = [⟨"f1", .str "Unable to generate feedback at this time",
          .str "general", .num 0⟩,
         ⟨"f2", .str "ok", .str "layout", .num 1⟩] := by
  refine ⟨by decide,
    (feedback_per_frame_fallback genW true [⟨"f1"⟩, ⟨"f2"⟩] (by decide)).1, ?_⟩
  have h := (feedback_per_frame_fallback genW true [⟨"f1"⟩, ⟨"f2"⟩]
      (by decide)).2.1
  exact h.trans rfl

/-- C6 (amended): no handler is a single-query operation — the messaging
handlers issue up to five (send) and six (fetch-conversation) database
queries and the feedback route one outbound call per frame — but every
handler's work is bounded: send at most 5 queries, fetch-conversation at
most 6, register at most 2, and feedback at most one outbound HTTP call per
frame of the request. -/
theorem query_call_bounds :
    (∀ db s r c f, (sendHandler db s r c f).queries ≤ 5)
  ∧ (∀ db u o off lim f, (getConvHandler db u o off lim f).queries ≤ 6)
  ∧ (∀ db n f, (registerHandler db n f).queries ≤ 2)
  ∧ (∀ gen k fs t, (feedbackHandler gen k (some fs) t).httpCalls ≤ fs.length) := by
  refine ⟨?_, ?_, ?_, ?_⟩ <;>
    intros <;>
    simp only [sendHandler, getConvHandler, registerHandler,
      feedbackHandler] <;>
    (repeat' split) <;> simp

/-- Counterexample for C6: sending the first message between two existing
users issues five database queries, more than one. -/
theorem send_multiple_queries :
    (sendHandler dbAB (some "alice") (some "bob") (some "hi") false).queries = 5
  ∧ ¬((sendHandler dbAB (some "alice") (some "bob") (some "hi") false).queries
        ≤ 1) := by
  constructor
  · rfl
  · decide

/-- C7: registration preserves cat_name uniqueness. With a valid name, when
the name already exists the handler answers that user's id with
created:false and leaves the table unchanged; only when the name is absent
does it insert one new row; in both cases no two rows share a cat_name
afterwards if none did before. -/
theorem register_preserves_uniqueness (db : DB) (name : String)
    (hname : jsTrim name ≠ "")
    (huniq : (db.users.map User.cat_name).Nodup) :
    (∀ u, findUser db name = some u →
        (registerHandler db (some name) false).status = 200
      ∧ (registerHandler db (some name) false).id = some u.id
      ∧ (registerHandler db (some name) false).created = some false
      ∧ (registerHandler db (some name) false).db = db)
  ∧ (findUser db name = none →
        (registerHandler db (some name) false).status = 200
      ∧ (registerHandler db (some name) false).created = some true
      ∧ (registerHandler db (some name) false).db.users
          = db.users ++ [⟨db.nextUser, name⟩])
  ∧ ((registerHandler db (some name) false).db.users.map
        User.cat_name).Nodup := by
  have hv : ¬(name = "" ∨ jsTrim name = "") := by
    rintro (h | h)
    · exact hname (by simp [h, jsTrim, trimChars])
    · exact hname h
  refine ⟨?_, ?_, ?_⟩
  · intro u hu
    simp [registerHandler, hv, hu]
  · intro hn
    simp [registerHandler, hv, hn]
  · cases hu : findUser db name with
    | some u => simpa [registerHandler, hv, hu] using huniq
    | none =>
      have hnotin : name ∉ db.users.map User.cat_name := by
        intro hmem
        obtain ⟨u, humem, hequ⟩ := List.mem_map.mp hmem
        have hall := List.find?_eq_none.mp hu u humem
        simp at hall
        exact hall hequ
      simp only [registerHandler, hv, hu, if_neg, ite_false]
      simp [List.nodup_append, huniq, hnotin]

/-- Witness for C7: registering an existing name answers created:false and
leaves the database unchanged. -/
theorem register_preserves_uniqueness_witness :
    jsTrim "alice" ≠ ""
  ∧ (dbAB.users.map User.cat_name).Nodup
  ∧ (registerHandler dbAB (some "alice") false).created = some false
  ∧ (registerHandler dbAB (some "alice") false).db = dbAB := by
  have h := (register_preserves_uniqueness dbAB "alice" (by decide)
      (by decide)).1 ⟨1, "alice"⟩ (by decide)
  exact ⟨by decide, by decide, h.2.2.1, h.2.2.2⟩

/-- Every string the speech filter keeps has length 1..130. -/
theorem validSpeech_bound (j : Json) (s : String) (h : validSpeech j = some s) :
    0 < s.length ∧ s.length ≤ 130 := by
  cases j <;> simp [validSpeech] at h
  case str s2 =>
    rcases h with ⟨⟨h1, h2⟩, rfl⟩
    exact ⟨h1, h2⟩

/-- When `aiSpeeches[category]` is absent, falsy, or an array,
`combineCategory` succeeds and appends the filtered valid speeches to the
fallback list, cut to five. -/
theorem combineCategory_ok (v : Option Json) (fb : List String)
    (h : ∀ j, v = some j → jsTruthy j = false ∨ ∃ xs, j = Json.arr xs) :
    ∃ valid, combineCategory v fb = .ok ((fb ++ valid).take 5)
      ∧ ∀ s ∈ valid, 0 < s.length ∧ s.length ≤ 130 := by
  cases v with
  | none =>
    refine ⟨[], ?_, by simp⟩
    simp [combineCategory, jsOr]
  | some j =>
    rcases h j rfl with hf | ⟨xs, rfl⟩
    · refine ⟨[], ?_, by simp⟩
      simp [combineCategory, jsOr, hf]
    · refine ⟨xs.filterMap validSpeech, ?_, ?_⟩
      · simp [combineCategory, jsOr, jsTruthy]
      · intro s hs
        obtain ⟨j2, _, hv⟩ := List.mem_filterMap.mp hs
        exact validSpeech_bound j2 s hv

/-- The category fold of `validateAndCombineSpeeches` over any category
list: it succeeds, keeps the key list, and gives each category its fallback
followed by length-valid extra speeches, cut to five. -/
theorem combineEntries_ok (lookup : String → Option Json)
    (cats : List (String × List String))
    (h : ∀ cat fb, (cat, fb) ∈ cats → ∀ v, lookup cat = some v →
         jsTruthy v = false ∨ ∃ xs, v = Json.arr xs) :
    ∃ sp, combineEntries lookup cats = .ok sp
      ∧ sp.map Prod.fst = cats.map Prod.fst
      ∧ ∀ cat fb, (cat, fb) ∈ cats → ∃ valid, (cat, (fb ++ valid).take 5) ∈ sp
          ∧ ∀ s ∈ valid, 0 < s.length ∧ s.length ≤ 130 := by
  induction cats with
  | nil => exact ⟨[], rfl, rfl, by simp⟩
  | cons cf rest ih =>
    obtain ⟨c1, c2⟩ := cf
    obtain ⟨valid, hok, hval⟩ := combineCategory_ok (lookup c1) c2
      (fun j hj => h c1 c2 (List.mem_cons_self _ _) j hj)
    obtain ⟨sp, hsp, hfst, hprops⟩ :=
      ih (fun cat fb hm v hv => h cat fb (List.mem_cons_of_mem _ hm) v hv)
    refine ⟨(c1, (c2 ++ valid).take 5) :: sp, ?_, ?_, ?_⟩
    · simp [combineEntries, hok, hsp]
      rfl
    · simp [hfst]
    · intro cat fb hm
      rcases List.mem_cons.mp hm with heq | hm2
      · obtain ⟨rfl, rfl⟩ := Prod.mk.injEq .. ▸ heq
        exact ⟨valid, List.mem_cons_self _ _, hval⟩
      · obtain ⟨valid2, hmem, hv2⟩ := hprops cat fb hm2
        exact ⟨valid2, List.mem_cons_of_mem _ hmem, hv2⟩

/-- Counterexample for C8: on the object `{"figma": 5}` — a value JSON.parse
can produce — `validateAndCombineSpeeches` throws at `.filter` instead of
returning a combined object, so the claim fails for this input object. -/
theorem validate_combine_throws_on_nonarray :
    validateAndCombineSpeeches (.obj [("figma", .num 5)]) = .error ()
  ∧ ∀ sp, validateAndCombineSpeeches (.obj [("figma", .num 5)]) ≠ .ok sp := by
  constructor
  · rfl
  · intro sp h
    exact Except.noConfusion
      ((rfl : validateAndCombineSpeeches (.obj [("figma", .num 5)])
          = .error ()).symm.trans h)

/-- C8 (amended): for every input object in which each of the six
categories' values is absent, falsy, or an array, the function returns an
object whose keys are exactly the six fallback categories; each list starts
with that category's three hardcoded fallback strings, has at most five
entries (so at most two AI speeches survive), and every retained AI entry is
a string of length 1..130. On other truthy non-array values it throws (see
the counterexample). -/
theorem validate_combine_shape (fields : List (String × Json))
    (h : ∀ cat fb, (cat, fb) ∈ FALLBACK_SPEECHES → ∀ v,
         jsonLookup fields cat = some v →
         jsTruthy v = false ∨ ∃ xs, v = Json.arr xs) :
    ∃ sp, validateAndCombineSpeeches (.obj fields) = .ok sp
      ∧ sp.map Prod.fst
          = ["general_tech_roasts", "ai_news", "figma", "science", "games",
             "design_tools"]
      ∧ ∀ cat fb, (cat, fb) ∈ FALLBACK_SPEECHES → ∃ l, (cat, l) ∈ sp
          ∧ l.take 3 = fb ∧ l.length ≤ 5
          ∧ ∀ s ∈ l.drop 3, 0 < s.length ∧ s.length ≤ 130 := by
  obtain ⟨sp, hok, hfst, hprops⟩ :=
    combineEntries_ok (jsonLookup fields) FALLBACK_SPEECHES h
  refine ⟨sp, hok, by simpa [FALLBACK_SPEECHES] using hfst, ?_⟩
  intro cat fb hm
  obtain ⟨valid, hmem, hval⟩ := hprops cat fb hm
  have hfb3 : fb.length = 3 := by
    simp only [FALLBACK_SPEECHES, List.mem_cons, List.not_mem_nil,
      or_false] at hm
    rcases hm with h6 | h6 | h6 | h6 | h6 | h6 <;>
      (obtain ⟨rfl, rfl⟩ := Prod.mk.injEq .. ▸ h6; rfl)
  refine ⟨(fb ++ valid).take 5, hmem, ?_, List.length_take_le .., ?_⟩
  · rw [List.take_take]
    norm_num
    rw [← hfb3, List.take_left]
  · intro s hs
    have hsub : s ∈ (fb ++ valid).drop 3 := by
      have h1 : ((fb ++ valid).take 5).drop 3 ⊆ (fb ++ valid).drop 3 := by
        rw [List.drop_take]
        exact List.take_subset _ _
      exact h1 hs
    rw [← hfb3, List.drop_left] at hsub
    exact hval s hsub

/-- Witness for C8 at the empty input object: the result keeps exactly the
six categories. -/
theorem validate_combine_shape_witness :
    ∃ sp, validateAndCombineSpeeches (.obj []) = .ok sp
      ∧ sp.map Prod.fst
          = ["general_tech_roasts", "ai_news", "figma", "science", "games",
             "design_tools"] := by
  obtain ⟨sp, h1, h2, _⟩ := validate_combine_shape []
    (fun cat fb hm v hv => Option.noConfusion hv)
  exact ⟨sp, h1, h2⟩

/-- Counterexample for C9: when the two path parameters name the same user
(a self-conversation, which POST /api/messages/send can create), the
mark-read update flips a message the requesting user sent, so the claim's
"messages sent by the requesting user are unchanged" fails as stated. -/
theorem getconv_self_marks_own_read :
    findUser dbSelf "alice" = some ⟨1, "alice"⟩
  ∧ dbSelf.msgs = [⟨1, 1, 1, "note to self", false, 0⟩]
  ∧ (getConvHandler dbSelf "alice" "alice" 0 50 false).db.msgs
      = [⟨1, 1, 1, "note to self", true, 0⟩] := by
  refine ⟨by decide, by decide, ?_⟩
  decide

/-- C9 (amended): fetching a conversation between two distinct users marks
every message the other user sent in that conversation as read — the whole
message table is rewritten by `markRead`, independent of the requested
offset and limit page — while messages sent by the requesting user, and all
messages of other conversations, are left exactly as they were; users and
conversations are untouched. -/
theorem getconv_marks_other_read (db : DB) (userName otherName : String)
    (offset limit : Nat) (u o : User) (c : Conv)
    (hu : findUser db userName = some u) (ho : findUser db otherName = some o)
    (hne : u.id ≠ o.id)
    (hc : findConversation db.convs u.id o.id = some c) :
    (getConvHandler db userName otherName offset limit false).db.msgs
        = db.msgs.map (markRead c.id o.id)
  ∧ (∀ m : Msg, m.conv = c.id → m.sender = o.id →
        markRead c.id o.id m = { m with is_read := true })
  ∧ (∀ m : Msg, m.sender = u.id → markRead c.id o.id m = m)
  ∧ (∀ m : Msg, m.conv ≠ c.id → markRead c.id o.id m = m)
  ∧ (getConvHandler db userName otherName offset limit false).db.users
      = db.users
  ∧ (getConvHandler db userName otherName offset limit false).db.convs
      = db.convs
  ∧ (∀ off2 lim2, (getConvHandler db userName otherName off2 lim2 false).db
        = (getConvHandler db userName otherName offset limit false).db) := by
  refine ⟨?_, ?_, ?_, ?_, ?_, ?_, ?_⟩
  · simp [getConvHandler, hu, ho, hc]
  · intro m h1 h2
    simp [markRead, h1, h2]
  · intro m hm
    have hs : (m.sender == o.id) = false := by
      simp [hm]
      exact hne
    simp [markRead, hs]
  · intro m hm
    have hcv : (m.conv == c.id) = false := by
      simp [hm]
    simp [markRead, hcv]
  · simp [getConvHandler, hu, ho, hc]
  · simp [getConvHandler, hu, ho, hc]
  · intro off2 lim2
    simp [getConvHandler, hu, ho, hc]

/-- Witness for C9: Bob's unread message to Alice is marked read by Alice's
fetch. -/
theorem getconv_marks_other_read_witness :
    findUser dbConv "alice" = some ⟨1, "alice"⟩
  ∧ findUser dbConv "bob" = some ⟨2, "bob"⟩
  ∧ (1 : Nat) ≠ 2
  ∧ findConversation dbConv.convs 1 2 = some ⟨1, 1, 2⟩
  ∧ (getConvHandler dbConv "alice" "bob" 0 50 false).db.msgs
      = [⟨1, 1, 2, "yo", true, 0⟩] := by
  have h := (getconv_marks_other_read dbConv "alice" "bob" 0 50
      ⟨1, "alice"⟩ ⟨2, "bob"⟩ ⟨1, 1, 2⟩ (by decide) (by decide) (by decide)
      (by decide)).1
  exact ⟨by decide, by decide, by decide, by decide, h.trans (by decide)⟩

/-- C10: conversation lookup is symmetric in the two participants. The
selection query shared by POST /api/messages/send and the conversation GET
finds the same first row for (A,B) and (B,A); hence the GET addresses the
same conversation id whichever way the pair is presented, and after a
successful send from A to B a fetch by B of the conversation with A
addresses exactly the conversation the message went to. -/
theorem conversation_lookup_symmetric :
    (∀ (convs : List Conv) (a b : Nat),
        findConversation convs a b = findConversation convs b a)
  ∧ (∀ (db : DB) (aName bName : String) (off lim : Nat) (f : Bool),
        (getConvHandler db aName bName off lim f).conversationId
          = (getConvHandler db bName aName off lim f).conversationId)
  ∧ (∀ (db : DB) (s r cont : String) (off lim : Nat),
        (sendHandler db (some s) (some r) (some cont) false).status = 200 →
        (getConvHandler (sendHandler db (some s) (some r) (some cont)
            false).db r s off lim false).conversationId
          = (sendHandler db (some s) (some r) (some cont) false).convId) := by
  have hsym : ∀ (convs : List Conv) (a b : Nat),
      findConversation convs a b = findConversation convs b a := by
    intro convs a b
    unfold findConversation
    rw [isConvBetween_comm]
  refine ⟨hsym, ?_, ?_⟩
  · intro db aN bN off lim f
    cases f
    · rcases hu : findUser db aN with _ | u <;>
        rcases ho : findUser db bN with _ | o <;>
        simp only [getConvHandler, hu, ho, Bool.false_eq_true, if_false]
      rw [hsym db.convs o.id u.id]
      rcases hc : findConversation db.convs u.id o.id with _ | c <;> simp
    · simp [getConvHandler]
  · intro db s r cont off lim h200
    by_cases hval : s = "" ∨ r = "" ∨ cont = ""
    · simp [sendHandler, hval] at h200
    · rcases hs : findUser db s with _ | su <;>
        rcases hr : findUser db r with _ | ru
      · simp [sendHandler, hval, hs, hr] at h200
      · simp [sendHandler, hval, hs, hr] at h200
      · simp [sendHandler, hval, hs, hr] at h200
      · have hs2 : db.users.find? (fun u => u.cat_name == s) = some su := hs
        have hr2 : db.users.find? (fun u => u.cat_name == r) = some ru := hr
        rcases hc : findConversation db.convs su.id ru.id with _ | c
        · -- no conversation yet: the send creates one and the fetch finds it
          have hcsym : db.convs.find? (isConvBetween ru.id su.id) = none := by
            have := (hsym db.convs ru.id su.id).trans hc
            simpa [findConversation] using this
          have hfound : findConversation
              (db.convs ++ [⟨db.nextConv, su.id, ru.id⟩]) ru.id su.id
              = some ⟨db.nextConv, su.id, ru.id⟩ := by
            unfold findConversation
            rw [find?_append_none _ _ _ hcsym]
            simp [List.find?, isConvBetween]
          simp [sendHandler, hval, hs, hr, hc, getConvHandler, findUser,
            hs2, hr2, hfound]
        · -- existing conversation: both sides address the same row
          have hcsym : findConversation db.convs ru.id su.id = some c :=
            (hsym db.convs ru.id su.id).trans hc
          simp [sendHandler, hval, hs, hr, hc, getConvHandler, findUser,
            hs2, hr2, hcsym]

/-- Witness for C10: Alice's first message to Bob creates conversation 1 and
Bob's fetch of the conversation with Alice addresses that same id. -/
theorem conversation_lookup_symmetric_witness :
    (sendHandler dbAB (some "alice") (some "bob") (some "hi") false).status
      = 200
  ∧ (getConvHandler
        (sendHandler dbAB (some "alice") (some "bob") (some "hi") false).db
        "bob" "alice" 0 50 false).conversationId
      = (sendHandler dbAB (some "alice") (some "bob") (some "hi")
          false).convId :=
  ⟨by decide,
   conversation_lookup_symmetric.2.2 dbAB "alice" "bob" "hi" 0 50 (by decide)⟩

end Ameo
